import Mathlib

/-!
Verification of the SharePoint proxy application (src/app.py).

The program is a small Flask service with four pure-logic pieces that this
development embeds shallowly over `List Char` strings:

* `clean_sharepoint_path` (app.py lines 163-175): path normalisation;
* `create_folder_by_path` (app.py lines 49-92): the folder-chain resolver,
  modelled together with the trace of Graph API requests it issues;
* `fetch_file` (app.py lines 94-136): download-URL resolution, with the
  surrounding try/except modelled via `Except`;
* `upload_file` (app.py lines 138-161) and the `/fetch` route handler
  (app.py lines 218-248).

Remote behaviour (HTTP statuses, response bodies, raised exceptions) is
supplied by explicit environment records, so every function is executable.
-/

set_option linter.unusedVariables false

namespace SPApp

/-- Strings are modelled as lists of characters. -/
abbrev Str := List Char

/-! ### Python string primitives used by app.py -/

/-- Helper for `pySplit`: returns the first piece and the remaining pieces. -/
def pySplitAux (sep : Char) : Str → Str × List Str
  | [] => ([], [])
  | c :: cs =>
    let r := pySplitAux sep cs
    if c = sep then ([], r.1 :: r.2) else (c :: r.1, r.2)

/-- Python `s.split(sep)` for a one-character separator: keeps empty pieces,
and `"".split(sep) == [""]`. -/
def pySplit (sep : Char) (s : Str) : List Str :=
  (pySplitAux sep s).1 :: (pySplitAux sep s).2

/-- Python `sep.join(pieces)` for a one-character separator. -/
def joinSep (sep : Char) : List Str → Str
  | [] => []
  | s :: rest =>
    match rest with
    | [] => s
    | _ :: _ => s ++ sep :: joinSep sep rest

/-- Python `s.strip(c)` for a single strip character: removes the leading and
trailing runs of `c`. -/
def stripChar (c : Char) (s : Str) : Str :=
  ((s.dropWhile (fun a => a = c)).reverse.dropWhile (fun a => a = c)).reverse

/-- Fuelled worker for `replaceAll`; the fuel is the input length, which is
enough for any non-empty pattern. -/
def replaceAllFuel (pat rep : Str) : Nat → Str → Str
  | 0, s => s
  | _ + 1, [] => []
  | n + 1, c :: cs =>
    if pat.isPrefixOf (c :: cs) then
      rep ++ replaceAllFuel pat rep n (List.drop pat.length (c :: cs))
    else
      c :: replaceAllFuel pat rep n cs

/-- Python `s.replace(pat, rep)`: left-to-right, non-overlapping replacement of
every occurrence of `pat` (for non-empty `pat`). -/
def replaceAll (pat rep s : Str) : Str := replaceAllFuel pat rep s.length s

/-- Python `s.rsplit(sep, 1)` combined with the indexing done by the `/fetch`
handler (app.py lines 231-233): returns `(path, filename)`, where `path` is
`''` when the separator does not occur. -/
def pyRsplitLast (sep : Char) (s : Str) : Str × Str :=
  let r := s.reverse
  let fname := (r.takeWhile (fun c => ¬ (c = sep))).reverse
  match r.dropWhile (fun c => ¬ (c = sep)) with
  | [] => ([], fname)
  | _ :: before => (before.reverse, fname)

/-! ### Path normaliser (app.py lines 163-175) -/

/-- The content-reference suffix `':/content'` removed by the normaliser. -/
def contentPat : Str := ":/content".toList

/-- The segment list computed by lines 174-175 of app.py: strip separators,
split on `'/'`, discard empty segments. -/
def cleanPieces (q : Str) : List Str :=
  (pySplit '/' (stripChar '/' q)).filter (fun s => decide (s ≠ []))

/-- The strip/split/filter/join tail of `clean_sharepoint_path`
(app.py lines 174-175): strips separators, discards empty segments, rejoins. -/
def cleanCore (q : Str) : Str :=
  joinSep '/' (cleanPieces q)

/-- `clean_sharepoint_path` (app.py lines 163-175): removes occurrences of
`':/content'`, strips `'/'` from both ends, splits on `'/'`, drops empty
segments and rejoins with `'/'`. -/
def clean_sharepoint_path (path : Str) : Str :=
  cleanCore (replaceAll contentPat [] path)

/-- Modelled from the spec: section 4.1 describes the normaliser as stripping
"a trailing content-reference suffix if present", then stripping separators and
discarding empty segments.  This definition follows that wording (suffix
removal only at the end), to be compared with `clean_sharepoint_path`. -/
def clean_path_trailingOnly (path : Str) : Str :=
  let p1 := if contentPat.isSuffixOf path then path.take (path.length - contentPat.length) else path
  cleanCore p1

/-! ### Folder resolver (app.py lines 49-92) -/

/-- The fixed Graph API URL stem used by every constructed locator. -/
def graphSitesPre : Str := "https://graph.microsoft.com/v1.0/sites/".toList

/-- The initial value of `current_path` (app.py line 61). -/
def rootStart : Str := "drive/root:".toList

/-- The `':/children'` marker appearing in creation URLs. -/
def childrenPat : Str := ":/children".toList

/-- `f"https://graph.microsoft.com/v1.0/sites/{SP_SITE_ID}/{current_path}"`. -/
def siteBase (site cp : Str) : Str := graphSitesPre ++ site ++ '/' :: cp

/-- The per-segment existence-lookup URL (app.py line 68). -/
def checkUrl (site cp part : Str) : Str := siteBase site cp ++ '/' :: part

/-- The folder-creation URL (app.py line 76). -/
def createUrl (site cp : Str) : Str := siteBase site cp ++ childrenPat

/-- The storage provider's responses: a status for each GET lookup URL, and a
status for each POST creation (URL and requested folder name). -/
structure FolderProvider where
  lookupStatus : Str → Nat
  createStatus : Str → Str → Nat

/-- One outbound storage-provider request issued by the folder resolver. -/
inductive GraphEvent
  | lookup (url : Str)
  | create (url : Str) (name : Str)
deriving DecidableEq

/-- Possible outcomes of `create_folder_by_path`: a returned locator string,
the `-1` failure sentinel, or the unbound-local-variable error raised when the
final `return` reads `create_url` though no creation ever assigned it. -/
inductive FolderResult
  | handle (url : Str)
  | failureCode
  | nameError
deriving DecidableEq

/-- The `for part in parts` loop of `create_folder_by_path` (app.py lines
63-90).  State: remaining parts, `current_path`, and the last assigned
`create_url` (`none` when no creation has happened).  Returns the request
trace and either `none` (the early `return -1`) or the final
`(current_path, create_url)`. -/
def folderLoop (prov : FolderProvider) (site : Str) :
    List Str → Str → Option Str → List GraphEvent × Option (Str × Option Str)
  | [], cp, cu => ([], some (cp, cu))
  | part :: rest, cp, cu =>
    if part = [] then folderLoop prov site rest cp cu
    else
      if prov.lookupStatus (checkUrl site cp part) = 200 ∨
          prov.lookupStatus (checkUrl site cp part) = 201 then
        let r := folderLoop prov site rest (cp ++ '/' :: part) cu
        (GraphEvent.lookup (checkUrl site cp part) :: r.1, r.2)
      else
        if prov.createStatus (createUrl site cp) part = 200 ∨
            prov.createStatus (createUrl site cp) part = 201 then
          let r := folderLoop prov site rest (cp ++ '/' :: part) (some (createUrl site cp))
          (GraphEvent.lookup (checkUrl site cp part) ::
            GraphEvent.create (createUrl site cp) part :: r.1, r.2)
        else
          ([GraphEvent.lookup (checkUrl site cp part),
            GraphEvent.create (createUrl site cp) part], none)

/-- `create_folder_by_path` (app.py lines 49-92), paired with its request
trace.  After the loop, Python's `part` holds the last element of `parts`
(which is never empty), and the function returns
`create_url.replace(":/children", f"/{part}:/children")`; if no creation ever
ran, `create_url` is unbound and the line raises. -/
def create_folder_by_path (prov : FolderProvider) (site path : Str) :
    List GraphEvent × FolderResult :=
  let parts := pySplit '/' path
  match folderLoop prov site parts rootStart none with
  | (tr, none) => (tr, FolderResult.failureCode)
  | (tr, some (_, none)) => (tr, FolderResult.nameError)
  | (tr, some (_, some cu)) =>
      (tr, FolderResult.handle
        (replaceAll childrenPat ('/' :: (parts.getLastD [] ++ childrenPat)) cu))

/-- `current_path` after the resolver has processed the segments `ss`. -/
def cpAfter (ss : List Str) : Str :=
  rootStart ++ (ss.map (fun s => '/' :: s)).flatten

/-- The provider lets the resolver get past segment `s`, reached after the
earlier segments `pre`: either the existence lookup answers 2xx, or it does
not and the creation answers 2xx. -/
def segResolves (prov : FolderProvider) (site : Str) (pre : List Str) (s : Str) : Prop :=
  (prov.lookupStatus (checkUrl site (cpAfter pre) s) = 200 ∨
    prov.lookupStatus (checkUrl site (cpAfter pre) s) = 201) ∨
  (¬ (prov.lookupStatus (checkUrl site (cpAfter pre) s) = 200 ∨
      prov.lookupStatus (checkUrl site (cpAfter pre) s) = 201) ∧
    (prov.createStatus (createUrl site (cpAfter pre)) s = 200 ∨
      prov.createStatus (createUrl site (cpAfter pre)) s = 201))

/-! ### Download resolution (app.py lines 94-136) -/

/-- Behaviour of the identity provider, HTTP client and response body during
one `fetch_file` call, indexed by the requested URL: whether header fetching
raises, whether the GET raises, the response status, whether `.json()` raises
(non-JSON body), and the `@microsoft.graph.downloadUrl` field (absent =
`none`; Python also treats an empty string as missing via `if not
download_url`). -/
structure FetchEnv where
  headerRaises : Bool
  getRaises : Str → Bool
  status : Str → Nat
  jsonRaises : Str → Bool
  downloadUrl : Str → Option Str

/-- Outcome of `fetch_file`: the `-1` sentinel or a download URL string. -/
inductive FetchResult
  | failureCode
  | url (u : Str)
deriving DecidableEq

/-- The file-metadata URL built by `fetch_file` (app.py line 108). -/
def fetchUrl (site cleanedPath filename : Str) : Str :=
  graphSitesPre ++ site ++ "/drive/root:/".toList ++ cleanedPath ++ '/' :: filename

/-- The body of `fetch_file`'s `try` block (app.py lines 105-132).
`Except.error ()` stands for a raised exception. -/
def fetch_file_try (env : FetchEnv) (site path filename : Str) : Except Unit FetchResult :=
  if env.headerRaises then Except.error () else
  let cp := clean_sharepoint_path path
  let fp := fetchUrl site cp filename
  if env.getRaises fp then Except.error () else
  if env.status fp = 404 then Except.ok FetchResult.failureCode
  else if env.status fp = 401 then Except.ok FetchResult.failureCode
  else if env.status fp = 403 then Except.ok FetchResult.failureCode
  else if ¬ (env.status fp = 200 ∨ env.status fp = 201) then Except.ok FetchResult.failureCode
  else if env.jsonRaises fp then Except.error ()
  else
    match env.downloadUrl fp with
    | none => Except.ok FetchResult.failureCode
    | some u => if u = [] then Except.ok FetchResult.failureCode else Except.ok (FetchResult.url u)

/-- `fetch_file` (app.py lines 94-136): the `try` body with every exception
caught and converted to the `-1` sentinel (lines 134-136). -/
def fetch_file (env : FetchEnv) (site path filename : Str) : FetchResult :=
  match fetch_file_try env site path filename with
  | Except.ok r => r
  | Except.error _ => FetchResult.failureCode

/-! ### Upload (app.py lines 138-161) -/

/-- Outcome of `upload_file`: the locator string or the `-1` sentinel. -/
inductive UploadResult
  | handle (url : Str)
  | failureCode
deriving DecidableEq

/-- The locator built by `upload_file` (app.py lines 151-152):
`f"{root_path}/{path}/{filename}:/content"` with
`root_path = f"https://graph.microsoft.com/v1.0/sites/{SP_SITE_ID}/drive/root:"`. -/
def uploadLocator (site path filename : Str) : Str :=
  (graphSitesPre ++ site ++ "/drive/root:".toList) ++
    '/' :: (path ++ '/' :: (filename ++ ":/content".toList))

/-- `upload_file` (app.py lines 138-161); `putStatus url contents` is the
provider's status for the content PUT. -/
def upload_file (putStatus : Str → Str → Nat) (site path filename contents : Str) :
    UploadResult :=
  if putStatus (uploadLocator site path filename) contents = 200 ∨
      putStatus (uploadLocator site path filename) contents = 201 then
    UploadResult.handle (uploadLocator site path filename)
  else
    UploadResult.failureCode

/-! ### The `/fetch` route handler (app.py lines 218-248) -/

/-- JSON bodies produced by the `/fetch` handler. -/
inductive EndpointBody
  | errMsg (msg : Str)
  | fileInfo (download_url filename path : Str)
deriving DecidableEq

/-- `fetch_file_endpoint` (app.py lines 218-248): splits the trailing segment
off as the filename, normalises the rest, calls `fetch_file`, and renders
either `404 {error}` or `200 {download_url, filename, path}`. -/
def fetch_file_endpoint (env : FetchEnv) (site filepath : Str) : Nat × EndpointBody :=
  let pr := pyRsplitLast '/' filepath
  let filename := pr.2
  let path := clean_sharepoint_path pr.1
  match fetch_file env site path filename with
  | FetchResult.failureCode => (404, EndpointBody.errMsg "Failed to fetch file".toList)
  | FetchResult.url u => (200, EndpointBody.fileInfo u filename path)

/-! ### Concrete environments used to exercise the functions -/

/-- A provider on which every existence lookup answers 200. -/
def provAllExist : FolderProvider :=
  { lookupStatus := fun _ => 200, createStatus := fun _ _ => 404 }

/-- The scenario of the spec's folder-resolver test: under site `SITE`, the
lookup of `x` at the root answers 200, all other lookups answer 404, and every
creation answers 201. -/
def provXonly : FolderProvider :=
  { lookupStatus := fun u => if u = checkUrl "SITE".toList rootStart "x".toList then 200 else 404,
    createStatus := fun _ _ => 201 }

/-- The converse scenario: only the lookup of `z` under `x/y` answers 200
(`x` and `y` have to be created), and every creation answers 201. -/
def provZexists : FolderProvider :=
  { lookupStatus := fun u =>
      if u = checkUrl "SITE".toList "drive/root:/x/y".toList "z".toList then 200 else 404,
    createStatus := fun _ _ => 201 }

/-- Under site `S`: the lookup of `z` under `x` answers 404, every other
lookup answers 200, and every creation answers 201 (so `x` exists and `z` is
created). -/
def provLastCreated : FolderProvider :=
  { lookupStatus := fun u =>
      if u = checkUrl "S".toList "drive/root:/x".toList "z".toList then 404 else 200,
    createStatus := fun _ _ => 201 }

/-- A fetch environment that never raises, answers every metadata GET with the
given status, and returns a body without a download URL. -/
def envStatus (st : Nat) : FetchEnv :=
  { headerRaises := false, getRaises := fun _ => false, status := fun _ => st,
    jsonRaises := fun _ => false, downloadUrl := fun _ => none }

/-- A fetch environment that never raises, answers 200, and returns a body
carrying the download URL `http://dl`. -/
def envOkDl : FetchEnv :=
  { headerRaises := false, getRaises := fun _ => false, status := fun _ => 200,
    jsonRaises := fun _ => false, downloadUrl := fun _ => some "http://dl".toList }

/-- A fetch environment in which already the token acquisition raises. -/
def envRaise : FetchEnv :=
  { headerRaises := true, getRaises := fun _ => false, status := fun _ => 200,
    jsonRaises := fun _ => false, downloadUrl := fun _ => none }

/-! ## Helper lemmas: split / join / strip -/

theorem joinSep_nil (sep : Char) : joinSep sep [] = [] := rfl

theorem joinSep_single (sep : Char) (a : Str) : joinSep sep [a] = a := rfl

theorem joinSep_cons₂ (sep : Char) (a b : Str) (L : List Str) :
    joinSep sep (a :: b :: L) = a ++ sep :: joinSep sep (b :: L) := rfl

theorem joinSep_concat (sep : Char) :
    ∀ (A : List Str), A ≠ [] → ∀ b : Str, joinSep sep (A ++ [b]) = joinSep sep A ++ sep :: b := by
  intro A
  induction A with
  | nil => intro h; exact absurd rfl h
  | cons a A ih =>
    intro _ b
    cases A with
    | nil => rfl
    | cons a2 A' =>
      have h2 : (a2 :: A') ≠ [] := by simp
      calc joinSep sep ((a :: a2 :: A') ++ [b])
          = a ++ sep :: joinSep sep ((a2 :: A') ++ [b]) := rfl
        _ = a ++ sep :: (joinSep sep (a2 :: A') ++ sep :: b) := by rw [ih h2 b]
        _ = (a ++ sep :: joinSep sep (a2 :: A')) ++ sep :: b := by simp

theorem joinSep_reverse (sep : Char) :
    ∀ L : List Str, (joinSep sep L).reverse = joinSep sep (L.reverse.map List.reverse) := by
  intro L
  induction L with
  | nil => rfl
  | cons a L ih =>
    cases L with
    | nil => simp [joinSep]
    | cons b L' =>
      have hB : ((b :: L').reverse.map List.reverse) ≠ [] := by simp
      calc (joinSep sep (a :: b :: L')).reverse
          = (a ++ sep :: joinSep sep (b :: L')).reverse := rfl
        _ = ((joinSep sep (b :: L')).reverse ++ [sep]) ++ a.reverse := by simp
        _ = (joinSep sep ((b :: L').reverse.map List.reverse) ++ [sep]) ++ a.reverse := by rw [ih]
        _ = joinSep sep ((b :: L').reverse.map List.reverse) ++ sep :: a.reverse := by simp
        _ = joinSep sep (((b :: L').reverse.map List.reverse) ++ [a.reverse]) := by
              rw [joinSep_concat sep _ hB]
        _ = joinSep sep ((a :: b :: L').reverse.map List.reverse) := by simp

theorem pySplitAux_append (sep : Char) :
    ∀ (l r : Str), (∀ c ∈ l, c ≠ sep) →
      pySplitAux sep (l ++ r) = (l ++ (pySplitAux sep r).1, (pySplitAux sep r).2) := by
  intro l
  induction l with
  | nil => intro r _; simp
  | cons c l' ih =>
    intro r h
    have hc : ¬ (c = sep) := h c (by simp)
    have h' : ∀ x ∈ l', x ≠ sep := fun x hx => h x (by simp [hx])
    simp [pySplitAux, hc, ih r h']

theorem pySplitAux_sep_cons (sep : Char) (r : Str) :
    pySplitAux sep (sep :: r) = ([], (pySplitAux sep r).1 :: (pySplitAux sep r).2) := by
  simp [pySplitAux]

theorem pySplit_joinSep (sep : Char) :
    ∀ L : List Str, L ≠ [] → (∀ l ∈ L, ∀ c ∈ l, c ≠ sep) →
      pySplit sep (joinSep sep L) = L := by
  intro L
  induction L with
  | nil => intro h; exact absurd rfl h
  | cons a L ih =>
    intro _ h
    have ha : ∀ c ∈ a, c ≠ sep := h a (by simp)
    cases L with
    | nil =>
      show pySplit sep (joinSep sep [a]) = [a]
      rw [joinSep_single]
      have h0 : pySplitAux sep ([] : Str) = ([], []) := rfl
      have hx := pySplitAux_append sep a [] ha
      rw [h0] at hx
      simp at hx
      simp [pySplit, hx]
    | cons b L' =>
      have hrest : ∀ l ∈ b :: L', ∀ c ∈ l, c ≠ sep := by
        intro l hl; exact h l (by simp [hl])
      have ihr := ih (by simp) hrest
      rw [joinSep_cons₂]
      unfold pySplit at ihr ⊢
      rw [pySplitAux_append sep a _ ha, pySplitAux_sep_cons]
      simp only [List.cons.injEq] at ihr ⊢
      exact ⟨by simp, ihr⟩

theorem pySplitAux_sep_free (sep : Char) :
    ∀ s : Str, (∀ c ∈ (pySplitAux sep s).1, c ≠ sep) ∧
      (∀ l ∈ (pySplitAux sep s).2, ∀ c ∈ l, c ≠ sep) := by
  intro s
  induction s with
  | nil => simp [pySplitAux]
  | cons c cs ih =>
    by_cases hc : c = sep
    · refine ⟨by simp [pySplitAux, hc], ?_⟩
      intro l hl
      simp only [pySplitAux, hc, if_pos rfl] at hl
      rcases List.mem_cons.mp hl with h1 | h1
      · exact h1 ▸ ih.1
      · exact ih.2 l h1
    · refine ⟨?_, ?_⟩
      · intro x hx
        simp only [pySplitAux, if_neg hc] at hx
        rcases List.mem_cons.mp hx with h1 | h1
        · exact h1 ▸ hc
        · exact ih.1 x h1
      · intro l hl
        simp only [pySplitAux, if_neg hc] at hl
        exact ih.2 l hl

theorem pySplit_sep_free (sep : Char) (s : Str) :
    ∀ l ∈ pySplit sep s, ∀ c ∈ l, c ≠ sep := by
  intro l hl
  rcases List.mem_cons.mp hl with h1 | h1
  · exact h1 ▸ (pySplitAux_sep_free sep s).1
  · exact (pySplitAux_sep_free sep s).2 l h1

theorem dropWhile_joinSep (sep : Char) (L : List Str)
    (hnil : ∀ l ∈ L, l ≠ []) (hsep : ∀ l ∈ L, ∀ c ∈ l, c ≠ sep) (hne : L ≠ []) :
    (joinSep sep L).dropWhile (fun a => a = sep) = joinSep sep L := by
  cases L with
  | nil => exact absurd rfl hne
  | cons l L' =>
    obtain ⟨c, l', rfl⟩ : ∃ c l', l = c :: l' := by
      cases l with
      | nil => exact absurd rfl (hnil [] (by simp))
      | cons c l' => exact ⟨c, l', rfl⟩
    have hc : ¬ (c = sep) := hsep (c :: l') (by simp) c (by simp)
    have hj : ∃ t, joinSep sep ((c :: l') :: L') = c :: t := by
      cases L' with
      | nil => exact ⟨l', by simp [joinSep_single]⟩
      | cons b L'' => exact ⟨l' ++ sep :: joinSep sep (b :: L''), by simp [joinSep_cons₂]⟩
    rcases hj with ⟨t, ht⟩
    rw [ht, List.dropWhile_cons]
    simp [hc]

theorem stripChar_joinSep (sep : Char) (L : List Str)
    (hnil : ∀ l ∈ L, l ≠ []) (hsep : ∀ l ∈ L, ∀ c ∈ l, c ≠ sep) (hne : L ≠ []) :
    stripChar sep (joinSep sep L) = joinSep sep L := by
  have hne' : (L.reverse.map List.reverse) ≠ [] := by
    intro h
    exact hne (by simpa using congrArg List.length h)
  have hnil' : ∀ l ∈ L.reverse.map List.reverse, l ≠ [] := by
    intro l hl
    rcases List.mem_map.mp hl with ⟨x, hx, rfl⟩
    have := hnil x (List.mem_reverse.mp hx)
    simpa using this
  have hsep' : ∀ l ∈ L.reverse.map List.reverse, ∀ c ∈ l, c ≠ sep := by
    intro l hl c hc
    rcases List.mem_map.mp hl with ⟨x, hx, rfl⟩
    exact hsep x (List.mem_reverse.mp hx) c (List.mem_reverse.mp hc)
  unfold stripChar
  rw [dropWhile_joinSep sep L hnil hsep hne]
  rw [joinSep_reverse]
  rw [dropWhile_joinSep sep _ hnil' hsep' hne']
  rw [← joinSep_reverse, List.reverse_reverse]

/-! ## Helper lemmas: the normaliser -/

theorem cleanPieces_ne_nil (q : Str) : ∀ l ∈ cleanPieces q, l ≠ [] := by
  intro l hl
  have := List.of_mem_filter hl
  exact of_decide_eq_true this

theorem cleanPieces_sep_free (q : Str) : ∀ l ∈ cleanPieces q, ∀ c ∈ l, c ≠ '/' := by
  intro l hl
  exact pySplit_sep_free '/' (stripChar '/' q) l (List.mem_of_mem_filter hl)

theorem cleanCore_nil : cleanCore [] = [] := by decide

theorem stripChar_cleanCore (q : Str) : stripChar '/' (cleanCore q) = cleanCore q := by
  by_cases h : cleanPieces q = []
  · show stripChar '/' (joinSep '/' (cleanPieces q)) = joinSep '/' (cleanPieces q)
    rw [h]
    rfl
  · exact stripChar_joinSep '/' (cleanPieces q) (cleanPieces_ne_nil q) (cleanPieces_sep_free q) h

theorem pySplit_cleanCore (q : Str) (h : cleanPieces q ≠ []) :
    pySplit '/' (cleanCore q) = cleanPieces q := by
  exact pySplit_joinSep '/' (cleanPieces q) h (cleanPieces_sep_free q)

theorem cleanPieces_cleanCore (q : Str) (h : cleanPieces q ≠ []) :
    cleanPieces (cleanCore q) = cleanPieces q := by
  show (pySplit '/' (stripChar '/' (cleanCore q))).filter (fun s => decide (s ≠ [])) = cleanPieces q
  rw [stripChar_cleanCore q, pySplit_cleanCore q h]
  exact List.filter_eq_self.mpr (fun a ha => decide_eq_true (cleanPieces_ne_nil q a ha))

theorem cleanCore_idem (q : Str) : cleanCore (cleanCore q) = cleanCore q := by
  by_cases h : cleanPieces q = []
  · show cleanCore (joinSep '/' (cleanPieces q)) = joinSep '/' (cleanPieces q)
    rw [h]
    show cleanCore [] = joinSep '/' []
    rw [cleanCore_nil]
    rfl
  · show joinSep '/' (cleanPieces (cleanCore q)) = cleanCore q
    rw [cleanPieces_cleanCore q h]
    rfl

/-! ## Helper lemmas: replaceAll -/

theorem replaceAllFuel_nil (pat rep : Str) : ∀ n, replaceAllFuel pat rep n [] = [] := by
  intro n
  cases n <;> rfl

theorem replaceAllFuel_append_pat (pat rep : Str) (hpat : pat ≠ []) :
    ∀ (a : Str) (fuel : Nat), (a ++ pat).length ≤ fuel →
      (∀ i, i < a.length → pat.isPrefixOf ((a ++ pat).drop i) = false) →
      replaceAllFuel pat rep fuel (a ++ pat) = a ++ rep := by
  intro a
  induction a with
  | nil =>
    intro fuel hf _
    obtain ⟨c, cs, rfl⟩ : ∃ c cs, pat = c :: cs := by
      cases pat with
      | nil => exact absurd rfl hpat
      | cons c cs => exact ⟨c, cs, rfl⟩
    simp only [List.nil_append] at hf ⊢
    obtain ⟨n, rfl⟩ : ∃ n, fuel = n + 1 := by
      cases fuel with
      | zero => simp at hf
      | succ n => exact ⟨n, rfl⟩
    have hpref : (c :: cs).isPrefixOf (c :: cs) = true := by
      rw [List.isPrefixOf_iff_prefix]
    simp only [replaceAllFuel, hpref, if_pos]
    rw [List.drop_length, replaceAllFuel_nil, List.append_nil]
  | cons x a' ih =>
    intro fuel hf hocc
    obtain ⟨n, rfl⟩ : ∃ n, fuel = n + 1 := by
      cases fuel with
      | zero => simp at hf
      | succ n => exact ⟨n, rfl⟩
    have h0 : pat.isPrefixOf ((x :: a') ++ pat) = false := by
      have := hocc 0 (by simp)
      simpa using this
    have h0' : ¬ (pat.isPrefixOf (x :: (a' ++ pat)) = true) := by
      rw [show pat.isPrefixOf (x :: (a' ++ pat)) = false from h0]
      simp
    show replaceAllFuel pat rep (n + 1) (x :: (a' ++ pat)) = (x :: a') ++ rep
    rw [replaceAllFuel]
    rw [if_neg h0']
    have hocc' : ∀ i, i < a'.length → pat.isPrefixOf ((a' ++ pat).drop i) = false := by
      intro i hi
      have := hocc (i + 1) (by simpa using Nat.succ_lt_succ hi)
      simpa using this
    rw [ih n (by simpa using Nat.le_of_succ_le_succ hf) hocc']
    rfl

theorem replaceAll_append_pat (pat rep a : Str) (hpat : pat ≠ [])
    (hocc : ∀ i, i < a.length → pat.isPrefixOf ((a ++ pat).drop i) = false) :
    replaceAll pat rep (a ++ pat) = a ++ rep :=
  replaceAllFuel_append_pat pat rep hpat a (a ++ pat).length (Nat.le_refl _) hocc

/-! ## Helper lemmas: the folder-resolution loop -/

theorem cpAfter_nil : cpAfter [] = rootStart := by
  simp [cpAfter]

theorem cpAfter_concat (A : List Str) (s : Str) :
    cpAfter (A ++ [s]) = cpAfter A ++ '/' :: s := by
  simp [cpAfter]

theorem folderLoop_nil (prov : FolderProvider) (site : Str) (cp : Str) (cu : Option Str) :
    folderLoop prov site [] cp cu = ([], some (cp, cu)) := rfl

theorem folderLoop_append_ok (prov : FolderProvider) (site : Str) :
    ∀ (A B : List Str) (cp : Str) (cu : Option Str) (t1 : List GraphEvent)
      (cp' : Str) (cu' : Option Str),
      folderLoop prov site A cp cu = (t1, some (cp', cu')) →
      folderLoop prov site (A ++ B) cp cu =
        (t1 ++ (folderLoop prov site B cp' cu').1, (folderLoop prov site B cp' cu').2) := by
  intro A
  induction A with
  | nil =>
    intro B cp cu t1 cp' cu' h
    rw [folderLoop_nil] at h
    obtain ⟨rfl, rfl, rfl⟩ : t1 = [] ∧ cp = cp' ∧ cu = cu' := by
      simpa using h
    simp
  | cons p A' ih =>
    intro B cp cu t1 cp' cu' h
    by_cases hp : p = []
    · subst hp
      rw [show folderLoop prov site ([] :: A') cp cu = folderLoop prov site A' cp cu from rfl] at h
      show folderLoop prov site ([] :: (A' ++ B)) cp cu = _
      rw [show folderLoop prov site ([] :: (A' ++ B)) cp cu
            = folderLoop prov site (A' ++ B) cp cu from rfl]
      exact ih B cp cu t1 cp' cu' h
    · by_cases hL : prov.lookupStatus (checkUrl site cp p) = 200 ∨
          prov.lookupStatus (checkUrl site cp p) = 201
      · simp only [folderLoop, hp, hL] at h
        simp only [if_true, if_false, Prod.mk.injEq] at h
        obtain ⟨h1, h2⟩ := h
        have hr : folderLoop prov site A' (cp ++ '/' :: p) cu
            = ((folderLoop prov site A' (cp ++ '/' :: p) cu).1, some (cp', cu')) := by
          rw [← h2]
        have hih := ih B (cp ++ '/' :: p) cu _ cp' cu' hr
        show folderLoop prov site (p :: (A' ++ B)) cp cu = _
        simp only [folderLoop, hp, hL, if_true, if_false]
        rw [hih, ← h1]
        simp
      · by_cases hC : prov.createStatus (createUrl site cp) p = 200 ∨
            prov.createStatus (createUrl site cp) p = 201
        · simp only [folderLoop, hp, if_neg hL, hC] at h
          simp only [if_true, if_false, Prod.mk.injEq] at h
          obtain ⟨h1, h2⟩ := h
          have hr : folderLoop prov site A' (cp ++ '/' :: p) (some (createUrl site cp))
              = ((folderLoop prov site A' (cp ++ '/' :: p) (some (createUrl site cp))).1,
                 some (cp', cu')) := by
            rw [← h2]
          have hih := ih B (cp ++ '/' :: p) (some (createUrl site cp)) _ cp' cu' hr
          show folderLoop prov site (p :: (A' ++ B)) cp cu = _
          simp only [folderLoop, hp, if_neg hL, hC, if_true, if_false]
          rw [hih, ← h1]
          simp
        · simp only [folderLoop, hp, if_neg hL, if_neg hC, if_false, Prod.mk.injEq] at h
          exact absurd h.2 (by simp)

theorem folderLoop_all_lookup (prov : FolderProvider) (site : Str)
    (h2 : ∀ u, prov.lookupStatus u = 200 ∨ prov.lookupStatus u = 201) :
    ∀ (todo : List Str) (cp : Str) (cu : Option Str),
      ∃ tr cp', folderLoop prov site todo cp cu = (tr, some (cp', cu)) := by
  intro todo
  induction todo with
  | nil => intro cp cu; exact ⟨[], cp, rfl⟩
  | cons p rest ih =>
    intro cp cu
    by_cases hp : p = []
    · subst hp
      obtain ⟨tr, cp', hh⟩ := ih cp cu
      exact ⟨tr, cp', hh⟩
    · obtain ⟨tr, cp', hh⟩ := ih (cp ++ '/' :: p) cu
      refine ⟨GraphEvent.lookup (checkUrl site cp p) :: tr, cp', ?_⟩
      simp only [folderLoop, hp, h2 (checkUrl site cp p), if_true, if_false]
      rw [hh]

theorem folderLoop_resolved (prov : FolderProvider) (site : Str) :
    ∀ (todo done : List Str) (cu : Option Str),
      (∀ pre s post, todo = pre ++ s :: post → s ≠ [] ∧ segResolves prov site (done ++ pre) s) →
      ∃ tr cu', folderLoop prov site todo (cpAfter done) cu
        = (tr, some (cpAfter (done ++ todo), cu')) := by
  intro todo
  induction todo with
  | nil =>
    intro done cu _
    exact ⟨[], cu, by rw [folderLoop_nil, List.append_nil]⟩
  | cons s rest ih =>
    intro done cu h
    obtain ⟨hs, hres⟩ := h [] s rest rfl
    rw [List.append_nil] at hres
    have hnext : ∀ pre s' post, rest = pre ++ s' :: post →
        s' ≠ [] ∧ segResolves prov site ((done ++ [s]) ++ pre) s' := by
      intro pre s' post hr
      have hh := h (s :: pre) s' post (by rw [hr]; rfl)
      have hx : done ++ s :: pre = (done ++ [s]) ++ pre := by simp
      rw [hx] at hh
      exact hh
    have hconc : (done ++ [s]) ++ rest = done ++ s :: rest := by simp
    unfold segResolves at hres
    rcases hres with hL | ⟨hnL, hC⟩
    · obtain ⟨tr, cu', hloop⟩ := ih (done ++ [s]) cu hnext
      rw [hconc] at hloop
      refine ⟨GraphEvent.lookup (checkUrl site (cpAfter done) s) :: tr, cu', ?_⟩
      simp only [folderLoop, hs, hL, if_true, if_false]
      rw [← cpAfter_concat done s, hloop]
    · obtain ⟨tr, cu', hloop⟩ := ih (done ++ [s]) (some (createUrl site (cpAfter done))) hnext
      rw [hconc] at hloop
      refine ⟨GraphEvent.lookup (checkUrl site (cpAfter done) s) ::
        GraphEvent.create (createUrl site (cpAfter done)) s :: tr, cu', ?_⟩
      simp only [folderLoop, hs, if_neg hnL, hC, if_true, if_false]
      rw [← cpAfter_concat done s, hloop]

/-! ## Claim C2 -/

/-- Claim C2 (code-bug evidence): for the empty canonical path the folder
resolver performs zero loop iterations and issues zero storage-provider
requests, but instead of returning the provider's root handle it reaches the
final return statement with the creation-URL variable unbound: the call
raises rather than returning a handle (or even the failure sentinel),
contradicting both the claim and the function's own docstring. -/
theorem c2_empty_path_raises (prov : FolderProvider) (site : Str) :
    create_folder_by_path prov site [] = ([], FolderResult.nameError) := rfl

/-! ## Claim C3 -/

/-- Claim C3: whenever the provider answers every per-segment existence lookup
with status 200 or 201 (every folder in the chain already exists), no creation
request is issued, so the creation-URL variable is never assigned and
`create_folder_by_path` ends in the unbound-local-variable error instead of
returning the deepest folder's handle or the documented failure sentinel. -/
theorem c3_all_exist_unbound_variable (prov : FolderProvider) (site path : Str)
    (h2 : ∀ u, prov.lookupStatus u = 200 ∨ prov.lookupStatus u = 201)
    (hne : path ≠ []) :
    (create_folder_by_path prov site path).2 = FolderResult.nameError := by
  obtain ⟨tr, cp', hloop⟩ :=
    folderLoop_all_lookup prov site h2 (pySplit '/' path) rootStart none
  simp only [create_folder_by_path]
  rw [hloop]

/-- Witness for C3 at the provider answering 200 everywhere and path `a/b`. -/
theorem c3_witness :
    (∀ u, provAllExist.lookupStatus u = 200 ∨ provAllExist.lookupStatus u = 201) ∧
    ("a/b".toList ≠ ([] : Str)) ∧
    (create_folder_by_path provAllExist "S".toList "a/b".toList).2 = FolderResult.nameError :=
  ⟨fun _ => Or.inl rfl, by decide,
    c3_all_exist_unbound_variable provAllExist "S".toList "a/b".toList
      (fun _ => Or.inl rfl) (by decide)⟩

/-! ## Claim C5 -/

/-- Claim C5: on path `x/y/z` where `x` exists and `y`, `z` are absent, the
resolver issues exactly one lookup per segment and one creation per missing
segment, in left-to-right order: lookup `x`, lookup `y`, create `y`, lookup
`z`, create `z` — three lookups and two creations in total. -/
theorem c5_trace_xyz :
    (create_folder_by_path provXonly "SITE".toList "x/y/z".toList).1 =
      [GraphEvent.lookup (checkUrl "SITE".toList rootStart "x".toList),
       GraphEvent.lookup (checkUrl "SITE".toList "drive/root:/x".toList "y".toList),
       GraphEvent.create (createUrl "SITE".toList "drive/root:/x".toList) "y".toList,
       GraphEvent.lookup (checkUrl "SITE".toList "drive/root:/x/y".toList "z".toList),
       GraphEvent.create (createUrl "SITE".toList "drive/root:/x/y".toList) "z".toList] := by
  decide

/-! ## Claim C1 -/

/-- Claim C1 counterexample: on path `x/y/z` where `x` and `y` are missing
(both creations succeed) and `z` is found by lookup, the chain fully succeeds,
yet the returned locator is derived from the stale creation URL of `y` and
reads `.../drive/root:/x/z:/children` — it skips segment `y` and is not the
handle of the deepest folder `x/y/z` (which the resolver itself produces as
`.../drive/root:/x/y/z:/children` when `z` is the last created segment). -/
theorem c1_counterexample :
    create_folder_by_path provZexists "SITE".toList "x/y/z".toList =
      ([GraphEvent.lookup (checkUrl "SITE".toList rootStart "x".toList),
        GraphEvent.create (createUrl "SITE".toList rootStart) "x".toList,
        GraphEvent.lookup (checkUrl "SITE".toList "drive/root:/x".toList "y".toList),
        GraphEvent.create (createUrl "SITE".toList "drive/root:/x".toList) "y".toList,
        GraphEvent.lookup (checkUrl "SITE".toList "drive/root:/x/y".toList "z".toList)],
       FolderResult.handle
         "https://graph.microsoft.com/v1.0/sites/SITE/drive/root:/x/z:/children".toList) ∧
    FolderResult.handle
        "https://graph.microsoft.com/v1.0/sites/SITE/drive/root:/x/z:/children".toList ≠
      FolderResult.handle
        "https://graph.microsoft.com/v1.0/sites/SITE/drive/root:/x/y/z:/children".toList :=
  ⟨by decide, by decide⟩

/-- Claim C1 amended: when the resolution of the chain fully succeeds and in
addition the deepest (last) segment itself was created during the walk (its
lookup did not answer 2xx and its creation succeeded), and the constructed
creation URL contains the `:/children` marker only at its end (true for
ordinary folder names), `create_folder_by_path` returns the locator scoped to
the deepest segment through the whole chain,
`.../sites/<site>/drive/root:/<segments>:/children`. -/
theorem c1_deepest_handle_when_last_created
    (prov : FolderProvider) (site : Str) (ss : List Str) (z : Str)
    (hall : ∀ s ∈ ss ++ [z], s ≠ [] ∧ ∀ c ∈ s, c ≠ '/')
    (hres : ∀ pre s post, ss = pre ++ s :: post → segResolves prov site pre s)
    (hzlook : ¬ (prov.lookupStatus (checkUrl site (cpAfter ss) z) = 200 ∨
        prov.lookupStatus (checkUrl site (cpAfter ss) z) = 201))
    (hzcreate : prov.createStatus (createUrl site (cpAfter ss)) z = 200 ∨
        prov.createStatus (createUrl site (cpAfter ss)) z = 201)
    (hocc : ∀ i, i < (siteBase site (cpAfter ss)).length →
        childrenPat.isPrefixOf ((createUrl site (cpAfter ss)).drop i) = false) :
    (create_folder_by_path prov site (joinSep '/' (ss ++ [z]))).2 =
      FolderResult.handle (siteBase site (cpAfter (ss ++ [z])) ++ childrenPat) := by
  have hsplit : pySplit '/' (joinSep '/' (ss ++ [z])) = ss ++ [z] :=
    pySplit_joinSep '/' (ss ++ [z]) (by simp) (fun l hl c hc => (hall l hl).2 c hc)
  have hpre : ∀ pre s post, ss = pre ++ s :: post →
      s ≠ [] ∧ segResolves prov site ([] ++ pre) s := by
    intro pre s post hdec
    refine ⟨(hall s ?_).1, by simpa using hres pre s post hdec⟩
    rw [hdec]
    simp
  obtain ⟨t1, cu1, hloop1⟩ := folderLoop_resolved prov site ss [] none hpre
  rw [List.nil_append, cpAfter_nil] at hloop1
  have hz : z ≠ [] := (hall z (by simp)).1
  have hzstep : folderLoop prov site [z] (cpAfter ss) cu1 =
      ([GraphEvent.lookup (checkUrl site (cpAfter ss) z),
        GraphEvent.create (createUrl site (cpAfter ss)) z],
       some (cpAfter ss ++ '/' :: z, some (createUrl site (cpAfter ss)))) := by
    simp only [folderLoop, hz, if_neg hzlook, hzcreate, if_true, if_false, folderLoop_nil]
  have hfull := folderLoop_append_ok prov site ss [z] rootStart none t1 (cpAfter ss) cu1 hloop1
  rw [hzstep] at hfull
  simp only [create_folder_by_path, hsplit]
  rw [hfull]
  show FolderResult.handle
      (replaceAll childrenPat ('/' :: ((ss ++ [z]).getLastD [] ++ childrenPat))
        (createUrl site (cpAfter ss))) = _
  have hlast : (ss ++ [z]).getLastD ([] : Str) = z := by simp
  rw [hlast]
  have hcu : createUrl site (cpAfter ss) = siteBase site (cpAfter ss) ++ childrenPat := rfl
  have hrepl : replaceAll childrenPat ('/' :: (z ++ childrenPat))
      (createUrl site (cpAfter ss)) =
      siteBase site (cpAfter ss) ++ ('/' :: (z ++ childrenPat)) := by
    rw [hcu]
    exact replaceAll_append_pat childrenPat _ _ (by decide) hocc
  rw [hrepl, cpAfter_concat ss z]
  simp [siteBase, List.append_assoc]

/-- Witness for the amended C1: site `S`, segments `x` (existing) and `z`
(looked up 404, created 201); the returned locator is scoped to `z` through
the whole chain. -/
theorem c1_witness :
    (create_folder_by_path provLastCreated "S".toList
        (joinSep '/' (["x".toList] ++ ["z".toList]))).2 =
      FolderResult.handle
        (siteBase "S".toList (cpAfter (["x".toList] ++ ["z".toList])) ++ childrenPat) := by
  refine c1_deepest_handle_when_last_created provLastCreated "S".toList
    ["x".toList] "z".toList (by decide) ?_ (by decide) (by decide) (by decide)
  intro pre s post hdec
  cases pre with
  | nil =>
    rw [List.nil_append] at hdec
    injection hdec with h1 h2
    subst h1
    unfold segResolves
    decide
  | cons a pre' =>
    injection hdec with h1 h2
    exact absurd h2.symm (by simp)

/-! ## Helper lemmas: fetch_file evaluation -/

theorem fetch_try_non2xx (env : FetchEnv) (site path filename : Str)
    (hh : env.headerRaises = false) (hg : ∀ u, env.getRaises u = false)
    (hst : ¬ (env.status (fetchUrl site (clean_sharepoint_path path) filename) = 200 ∨
        env.status (fetchUrl site (clean_sharepoint_path path) filename) = 201)) :
    fetch_file_try env site path filename = Except.ok FetchResult.failureCode := by
  simp only [fetch_file_try, hh, Bool.false_eq_true, if_false, hg]
  by_cases h4 : env.status (fetchUrl site (clean_sharepoint_path path) filename) = 404
  · rw [if_pos h4]
  · rw [if_neg h4]
    by_cases h1 : env.status (fetchUrl site (clean_sharepoint_path path) filename) = 401
    · rw [if_pos h1]
    · rw [if_neg h1]
      by_cases h3 : env.status (fetchUrl site (clean_sharepoint_path path) filename) = 403
      · rw [if_pos h3]
      · rw [if_neg h3, if_pos hst]

theorem fetch_try_ok_url (env : FetchEnv) (site path filename dl : Str)
    (hh : env.headerRaises = false) (hg : ∀ u, env.getRaises u = false)
    (hj : ∀ u, env.jsonRaises u = false) (hst : ∀ u, env.status u = 200)
    (hdl : ∀ u, env.downloadUrl u = some dl) (hne : dl ≠ []) :
    fetch_file_try env site path filename = Except.ok (FetchResult.url dl) := by
  simp [fetch_file_try, hh, hg, hj, hst, hdl, hne]

/-! ## Claim C4 -/

/-- Claim C4 counterexample: a 404 metadata response (the spec's NotFound), a
403 response (PermissionDenied) and a 2xx response whose body lacks the
download-URL field (DownloadUrlMissing) all make `fetch_file` return the very
same value, the `-1` sentinel — the error outcomes are not mutually
distinguishable at the function's interface. -/
theorem c4_counterexample :
    fetch_file (envStatus 404) "S".toList "p".toList "f.txt".toList =
      fetch_file (envStatus 403) "S".toList "p".toList "f.txt".toList ∧
    fetch_file (envStatus 200) "S".toList "p".toList "f.txt".toList =
      fetch_file (envStatus 404) "S".toList "p".toList "f.txt".toList ∧
    fetch_file (envStatus 404) "S".toList "p".toList "f.txt".toList =
      FetchResult.failureCode :=
  ⟨by decide, by decide, by decide⟩

/-- Claim C4 amended: `fetch_file` does branch separately on status 404, 401,
403, any other non-2xx status, and a 2xx body lacking the download-URL field,
but every one of these branches returns the same `-1` sentinel, so the error
outcomes are distinguished only in logging, not at the interface; a 2xx
response with a nonempty download URL field yields that URL. -/
theorem c4_sentinel_mapping (env : FetchEnv) (site path filename : Str)
    (hh : env.headerRaises = false) (hg : ∀ u, env.getRaises u = false)
    (hj : ∀ u, env.jsonRaises u = false) :
    ((∀ u, env.status u = 404) →
      fetch_file env site path filename = FetchResult.failureCode) ∧
    ((∀ u, env.status u = 401) →
      fetch_file env site path filename = FetchResult.failureCode) ∧
    ((∀ u, env.status u = 403) →
      fetch_file env site path filename = FetchResult.failureCode) ∧
    ((∀ u, ¬ (env.status u = 200 ∨ env.status u = 201)) →
      fetch_file env site path filename = FetchResult.failureCode) ∧
    ((∀ u, env.status u = 200) → (∀ u, env.downloadUrl u = none) →
      fetch_file env site path filename = FetchResult.failureCode) ∧
    (∀ dl : Str, dl ≠ [] → (∀ u, env.status u = 200) → (∀ u, env.downloadUrl u = some dl) →
      fetch_file env site path filename = FetchResult.url dl) := by
  refine ⟨?_, ?_, ?_, ?_, ?_, ?_⟩
  · intro hst
    have htry := fetch_try_non2xx env site path filename hh hg (by rw [hst]; decide)
    simp [fetch_file, htry]
  · intro hst
    have htry := fetch_try_non2xx env site path filename hh hg (by rw [hst]; decide)
    simp [fetch_file, htry]
  · intro hst
    have htry := fetch_try_non2xx env site path filename hh hg (by rw [hst]; decide)
    simp [fetch_file, htry]
  · intro hst
    have htry := fetch_try_non2xx env site path filename hh hg (hst _)
    simp [fetch_file, htry]
  · intro hst hdl
    have htry : fetch_file_try env site path filename = Except.ok FetchResult.failureCode := by
      simp [fetch_file_try, hh, hg, hj, hst, hdl]
    simp [fetch_file, htry]
  · intro dl hne hst hdl
    have htry := fetch_try_ok_url env site path filename dl hh hg hj hst hdl hne
    simp [fetch_file, htry]

/-- Witness for the amended C4: under the 404-everywhere environment the
result is the sentinel, and under the 200-with-URL environment it is the URL. -/
theorem c4_witness :
    fetch_file (envStatus 404) "S".toList "p".toList "f.txt".toList =
      FetchResult.failureCode ∧
    fetch_file envOkDl "S".toList "p".toList "f.txt".toList =
      FetchResult.url "http://dl".toList :=
  ⟨(c4_sentinel_mapping (envStatus 404) "S".toList "p".toList "f.txt".toList
      rfl (fun _ => rfl) (fun _ => rfl)).1 (fun _ => rfl),
   (c4_sentinel_mapping envOkDl "S".toList "p".toList "f.txt".toList
      rfl (fun _ => rfl) (fun _ => rfl)).2.2.2.2.2 "http://dl".toList
      (by decide) (fun _ => rfl) (fun _ => rfl)⟩

/-! ## Claim C6 -/

/-- Claim C6: when the provider answers the content PUT with 200 or 201,
`upload_file` returns exactly the constructed resource locator
`<root>/<path>/<filename>:/content` that was used for the write; for any other
status it returns the `-1` failure value, which differs from every success
handle. -/
theorem c6_upload_locator (putStatus : Str → Str → Nat) (site path filename contents : Str) :
    (putStatus (uploadLocator site path filename) contents = 200 ∨
        putStatus (uploadLocator site path filename) contents = 201 →
      upload_file putStatus site path filename contents =
        UploadResult.handle (uploadLocator site path filename)) ∧
    (¬ (putStatus (uploadLocator site path filename) contents = 200 ∨
        putStatus (uploadLocator site path filename) contents = 201) →
      upload_file putStatus site path filename contents = UploadResult.failureCode) ∧
    (∀ u : Str, UploadResult.handle u ≠ UploadResult.failureCode) := by
  refine ⟨?_, ?_, ?_⟩
  · intro h
    simp only [upload_file]
    rw [if_pos h]
  · intro h
    simp only [upload_file]
    rw [if_neg h]
  · intro u h
    exact UploadResult.noConfusion h

/-- Witness for C6: a 201 answer yields the locator (spelled out in full), a
500 answer yields the sentinel. -/
theorem c6_witness :
    upload_file (fun _ _ => 201) "S".toList "a/b".toList "f.txt".toList "data".toList =
      UploadResult.handle (uploadLocator "S".toList "a/b".toList "f.txt".toList) ∧
    upload_file (fun _ _ => 500) "S".toList "a/b".toList "f.txt".toList "data".toList =
      UploadResult.failureCode ∧
    uploadLocator "S".toList "a/b".toList "f.txt".toList =
      "https://graph.microsoft.com/v1.0/sites/S/drive/root:/a/b/f.txt:/content".toList :=
  ⟨(c6_upload_locator (fun _ _ => 201) "S".toList "a/b".toList "f.txt".toList
      "data".toList).1 (Or.inr rfl),
   (c6_upload_locator (fun _ _ => 500) "S".toList "a/b".toList "f.txt".toList
      "data".toList).2.1 (by decide),
   by decide⟩

/-! ## Claim C9 -/

/-- Claim C9: on `GET /fetch/<filepath>`, when the provider answers the
metadata lookup with 404 the endpoint responds HTTP 404 with body
`{error: "Failed to fetch file"}`; on success it responds HTTP 200 with a body
carrying the download URL, the filename (the last slash-separated segment of
the request path) and the normalised directory path. -/
theorem c9_fetch_endpoint (env : FetchEnv) (site filepath : Str)
    (hh : env.headerRaises = false) (hg : ∀ u, env.getRaises u = false) :
    ((∀ u, env.status u = 404) →
      fetch_file_endpoint env site filepath =
        (404, EndpointBody.errMsg "Failed to fetch file".toList)) ∧
    (∀ dl : Str, dl ≠ [] → (∀ u, env.jsonRaises u = false) → (∀ u, env.status u = 200) →
      (∀ u, env.downloadUrl u = some dl) →
      fetch_file_endpoint env site filepath =
        (200, EndpointBody.fileInfo dl (pyRsplitLast '/' filepath).2
          (clean_sharepoint_path (pyRsplitLast '/' filepath).1))) := by
  constructor
  · intro hst
    have htry := fetch_try_non2xx env site
      (clean_sharepoint_path (pyRsplitLast '/' filepath).1)
      (pyRsplitLast '/' filepath).2 hh hg (by rw [hst]; decide)
    have hf : fetch_file env site (clean_sharepoint_path (pyRsplitLast '/' filepath).1)
        (pyRsplitLast '/' filepath).2 = FetchResult.failureCode := by
      simp [fetch_file, htry]
    simp [fetch_file_endpoint, hf]
  · intro dl hne hj hst hdl
    have htry := fetch_try_ok_url env site
      (clean_sharepoint_path (pyRsplitLast '/' filepath).1)
      (pyRsplitLast '/' filepath).2 dl hh hg hj hst hdl hne
    have hf : fetch_file env site (clean_sharepoint_path (pyRsplitLast '/' filepath).1)
        (pyRsplitLast '/' filepath).2 = FetchResult.url dl := by
      simp [fetch_file, htry]
    simp [fetch_file_endpoint, hf]

/-- Witness for C9 at `GET /fetch/a/b/report.pdf`: a 404-ing provider gives
the 404 error response, a succeeding provider gives the 200 response with
download URL, filename `report.pdf` and path `a/b`. -/
theorem c9_witness :
    fetch_file_endpoint (envStatus 404) "S".toList "a/b/report.pdf".toList =
      (404, EndpointBody.errMsg "Failed to fetch file".toList) ∧
    fetch_file_endpoint envOkDl "S".toList "a/b/report.pdf".toList =
      (200, EndpointBody.fileInfo "http://dl".toList "report.pdf".toList "a/b".toList) :=
  ⟨(c9_fetch_endpoint (envStatus 404) "S".toList "a/b/report.pdf".toList
      rfl (fun _ => rfl)).1 (fun _ => rfl),
   ((c9_fetch_endpoint envOkDl "S".toList "a/b/report.pdf".toList
      rfl (fun _ => rfl)).2 "http://dl".toList (by decide) (fun _ => rfl)
      (fun _ => rfl) (fun _ => rfl)).trans (by decide)⟩

/-! ## Claim C10 -/

/-- Claim C10: `fetch_file` is total at its interface: whatever the provider
does — including raising inside token acquisition, the HTTP GET, or JSON
parsing — the function returns either a download-URL string or the `-1`
sentinel, and every exception raised inside the try body is converted to the
sentinel rather than propagated. -/
theorem c10_fetch_total (env : FetchEnv) (site path filename : Str) :
    (fetch_file_try env site path filename = Except.error () →
      fetch_file env site path filename = FetchResult.failureCode) ∧
    (fetch_file env site path filename = FetchResult.failureCode ∨
      ∃ u : Str, fetch_file env site path filename = FetchResult.url u) := by
  constructor
  · intro h
    simp [fetch_file, h]
  · cases hr : fetch_file env site path filename with
    | failureCode => exact Or.inl rfl
    | url u => exact Or.inr ⟨u, rfl⟩

/-- Witness for C10: in the environment whose token acquisition raises, the
try body evaluates to an exception and `fetch_file` returns the sentinel. -/
theorem c10_witness :
    fetch_file envRaise "S".toList "p".toList "f.txt".toList = FetchResult.failureCode :=
  (c10_fetch_total envRaise "S".toList "p".toList "f.txt".toList).1 rfl

/-! ## Claim C7 -/

/-- Claim C7 counterexample: the raw path `:/cont:/contentent/` has a trailing
separator, yet the normaliser is not idempotent on it: one replacement pass
leaves the residue `:/content`, which a second application of the normaliser
removes. -/
theorem c7_counterexample :
    clean_sharepoint_path (clean_sharepoint_path ":/cont:/contentent/".toList) ≠
      clean_sharepoint_path ":/cont:/contentent/".toList := by
  decide

/-- Claim C7 amended: the normaliser is idempotent on every raw path whose
cleaned form contains no further occurrence of `:/content` (equivalently, on
which the suffix-removal pass is a no-op on the cleaned value) — in particular
on all paths with duplicate, leading or trailing separators but no residual
content marker. -/
theorem c7_idempotent_no_residual (p : Str)
    (h : replaceAll contentPat [] (clean_sharepoint_path p) = clean_sharepoint_path p) :
    clean_sharepoint_path (clean_sharepoint_path p) = clean_sharepoint_path p := by
  show cleanCore (replaceAll contentPat [] (clean_sharepoint_path p)) = clean_sharepoint_path p
  rw [h]
  show cleanCore (cleanCore (replaceAll contentPat [] p)) = cleanCore (replaceAll contentPat [] p)
  exact cleanCore_idem (replaceAll contentPat [] p)

/-- Witness for the amended C7 at the path `/a//b/` (duplicate, leading and
trailing separators). -/
theorem c7_witness :
    replaceAll contentPat [] (clean_sharepoint_path "/a//b/".toList) =
      clean_sharepoint_path "/a//b/".toList ∧
    clean_sharepoint_path (clean_sharepoint_path "/a//b/".toList) =
      clean_sharepoint_path "/a//b/".toList :=
  ⟨by decide, c7_idempotent_no_residual "/a//b/".toList (by decide)⟩

/-! ## Claim C8 -/

/-- Claim C8 counterexample: `clean_sharepoint_path` does not merely strip a
trailing `:/content` suffix — it removes interior occurrences as well.  On
`a:/content/b` (which has no trailing suffix, no extra separators and no empty
segments) the spec-described normaliser is the identity, while the code
returns `a/b`. -/
theorem c8_counterexample :
    clean_path_trailingOnly "a:/content/b".toList = "a:/content/b".toList ∧
    clean_sharepoint_path "a:/content/b".toList = "a/b".toList ∧
    clean_path_trailingOnly "a:/content/b".toList ≠
      clean_sharepoint_path "a:/content/b".toList :=
  ⟨by decide, by decide, by decide⟩

/-- Claim C8 amended: `clean_sharepoint_path` is a pure total function that
removes the occurrences of `:/content` found in a single left-to-right pass
(not only a trailing one), strips leading and trailing separators, and
discards empty segments; the three stated equations hold, and the output of
the normaliser indeed carries no leading or trailing separator and no empty
segment. -/
theorem c8_clean_properties :
    clean_sharepoint_path [] = [] ∧
    clean_sharepoint_path "/a//b/".toList = "a/b".toList ∧
    clean_sharepoint_path "a/b/:/content".toList = "a/b".toList ∧
    (∀ p : Str, stripChar '/' (clean_sharepoint_path p) = clean_sharepoint_path p) ∧
    (∀ p : Str, ∀ l ∈ pySplit '/' (clean_sharepoint_path p),
      clean_sharepoint_path p ≠ [] → l ≠ []) := by
  refine ⟨by decide, by decide, by decide, ?_, ?_⟩
  · intro p
    exact stripChar_cleanCore (replaceAll contentPat [] p)
  · intro p l hl hne
    have hq : cleanPieces (replaceAll contentPat [] p) ≠ [] := by
      intro h0
      apply hne
      show cleanCore (replaceAll contentPat [] p) = []
      show joinSep '/' (cleanPieces (replaceAll contentPat [] p)) = []
      rw [h0]
      rfl
    rw [show clean_sharepoint_path p = cleanCore (replaceAll contentPat [] p) from rfl,
      pySplit_cleanCore (replaceAll contentPat [] p) hq] at hl
    exact cleanPieces_ne_nil (replaceAll contentPat [] p) l hl

/-- Witness for the amended C8: the strip-identity and nonempty-segment parts
instantiated at `/a//b/` and its first segment `a`. -/
theorem c8_witness :
    stripChar '/' (clean_sharepoint_path "/a//b/".toList) =
      clean_sharepoint_path "/a//b/".toList ∧
    "a".toList ∈ pySplit '/' (clean_sharepoint_path "/a//b/".toList) ∧
    clean_sharepoint_path "/a//b/".toList ≠ [] ∧
    "a".toList ≠ ([] : Str) :=
  ⟨c8_clean_properties.2.2.2.1 "/a//b/".toList,
   by decide, by decide,
   c8_clean_properties.2.2.2.2 "/a//b/".toList "a".toList (by decide) (by decide)⟩

end SPApp
